import Mathlib

/-!
Verification development for the ReflexED lesson-generation pipeline.

Shallow embedding of `app/services/assignment_service.py` and the
persistence model of `app/models/models.py`.  Pure helpers are translated
into Lean functions over `List Char` / `String`; the external collaborators
(the Gemini backend, Python's stdlib `json.loads`, ffmpeg, the database
session) are modelled as explicit parameters or small state machines whose
semantics follow the libraries' documented behaviour.
-/

set_option maxHeartbeats 1000000
set_option maxRecDepth 2048

namespace ReflexED

/-- JSON values as produced by Python's `json.loads`: objects are ordered
field lists with string keys.  Number payloads are abstracted to `Int`;
no claim depends on numeric values. -/
inductive Json where
  | null : Json
  | bool (b : Bool) : Json
  | num (n : Int) : Json
  | str (s : String) : Json
  | arr (elems : List Json) : Json
  | obj (fields : List (String × Json)) : Json
  deriving Repr

/-- A Python dict with string keys holding decoded JSON values. -/
abbrev JDict := List (String × Json)

/-- First-match association lookup (Python dict lookup; `json.loads` never
yields duplicate keys inside one decoded object). -/
def jlookup : JDict → String → Option Json
  | [], _ => none
  | p :: rest, key => if p.1 = key then some p.2 else jlookup rest key

/-- `k in d` for a Python dict. -/
def hasKey (d : JDict) (k : String) : Bool := (jlookup d k).isSome

/-- `d.get(k, dflt)` for a Python dict. -/
def dictGet (d : JDict) (k : String) (dflt : Json) : Json := (jlookup d k).getD dflt

/-- First half of the dict-unpacking merge: the keys of `a` in order, each
overridden by the value from `b` when `b` also has that key. -/
def overrideWith (b : JDict) : JDict → JDict
  | [] => []
  | p :: rest => (p.1, (jlookup b p.1).getD p.2) :: overrideWith b rest

/-- Python's double-unpacking dict merge of `fallback` and `data`
(later-unpacked fields win on key collision, key order: `a` first). -/
def pyMerge (a b : JDict) : JDict :=
  overrideWith b a ++ b.filter (fun p => !(hasKey a p.1))

/-- Python's whitespace class for `str.strip` / the regex class `\s`
(restricted to the ASCII range; all texts in this development are ASCII or
the smart-punctuation code points, none of which are whitespace). -/
def isPySpace (c : Char) : Bool :=
  c = ' ' || c = '\t' || c = '\n' || c = '\r' || c = '\x0b' || c = '\x0c'

/-- Python `str.strip()` on a character list. -/
def pyStripList (cs : List Char) : List Char :=
  ((cs.dropWhile isPySpace).reverse.dropWhile isPySpace).reverse

/-- Python `str.strip()`. -/
def pyStrip (s : String) : String := ⟨pyStripList s.data⟩

/-- The three-backtick code-fence marker. -/
def fenceTicks : List Char := ['\x60', '\x60', '\x60']

/-- Split at the first occurrence of the fence marker: returns the text
before it and the text after it, or `none` when no marker occurs. -/
def breakTicks : List Char → Option (List Char × List Char)
  | [] => none
  | c :: rest =>
    if (c :: rest).take 3 = fenceTicks then some ([], rest.drop 2)
    else match breakTicks rest with
      | some (pre, post) => some (c :: pre, post)
      | none => none

/-- The optional case-insensitive `json` tag directly after the opening
fence in the pattern at line 936 of `assignment_service.py`. -/
def dropJsonTag (cs : List Char) : List Char :=
  if (cs.take 4).map Char.toLower = ['j', 's', 'o', 'n'] then cs.drop 4 else cs

/-- Line 936: extract the body of the first fenced code block (opening
marker, optional `json` tag, lazily matched body, closing marker), stripped
of surrounding whitespace; `none` when no complete fenced block occurs. -/
def extractFence (cs : List Char) : Option (List Char) :=
  match breakTicks cs with
  | none => none
  | some (_, afterOpen) =>
    match breakTicks afterOpen with
    | none => none
    | some (inner, _) => some (pyStripList (dropJsonTag inner))

/-- Index of the first occurrence of a character. -/
def firstIdx (cs : List Char) (c : Char) : Option Nat :=
  match cs with
  | [] => none
  | d :: rest => if d = c then some 0 else (firstIdx rest c).map (· + 1)

/-- Index of the last occurrence of a character. -/
def lastIdx (cs : List Char) (c : Char) : Option Nat :=
  match cs with
  | [] => none
  | d :: rest =>
    match lastIdx rest c with
    | some i => some (i + 1)
    | none => if d = c then some 0 else none

/-- Lines 941-946: when the cleaned text does not start with an opening
brace, slice from the first opening brace to the last closing brace
(Python slice semantics: empty when the last closer precedes the first
opener); leave the text unchanged when either brace is missing. -/
def braceSlice (cs : List Char) : List Char :=
  if cs.head? = some '\x7b' then cs
  else match firstIdx cs '\x7b', lastIdx cs '\x7d' with
    | some i, some j => (cs.drop i).take (j + 1 - i)
    | _, _ => cs

/-- Left-to-right `re.sub` scan for the pattern of line 950: a comma
directly before (possibly whitespace and) a closing brace or bracket is
removed, and scanning resumes after the match.  The structural `fuel`
argument strictly dominates the length of the scanned text, so the zero
case is never reached from `subTrailingComma`. -/
def subTrailingCommaGo : Nat → List Char → List Char
  | 0, cs => cs
  | _ + 1, [] => []
  | fuel + 1, c :: rest =>
    if c = ',' then
      match rest.dropWhile isPySpace with
      | b :: tl =>
        if b = '\x7d' || b = ']' then
          rest.takeWhile isPySpace ++ b :: subTrailingCommaGo fuel tl
        else c :: subTrailingCommaGo fuel rest
      | [] => c :: subTrailingCommaGo fuel rest
    else c :: subTrailingCommaGo fuel rest

/-- Line 950: remove every comma standing directly before a closing brace
or bracket. -/
def subTrailingComma (cs : List Char) : List Char :=
  subTrailingCommaGo cs.length cs

/-- Left-to-right scan for line 953 (`//` up to end of line is removed);
`fuel` as in `subTrailingCommaGo`. -/
def stripLineCommentsGo : Nat → List Char → List Char
  | 0, cs => cs
  | _ + 1, [] => []
  | fuel + 1, c :: rest =>
    match c, rest with
    | '/', '/' :: rest2 => stripLineCommentsGo fuel (rest2.dropWhile (fun d => d ≠ '\n'))
    | _, _ => c :: stripLineCommentsGo fuel rest

/-- Line 953: remove `//`-to-end-of-line comments. -/
def stripLineComments (cs : List Char) : List Char :=
  stripLineCommentsGo cs.length cs

/-- Scan for the block-comment closer `*/` and return the text after it. -/
def afterBlockClose (cs : List Char) : Option (List Char) :=
  match cs with
  | [] => none
  | a :: rest =>
    match rest with
    | [] => none
    | b :: rest2 =>
      if a = '*' && b = '/' then some rest2 else afterBlockClose rest

/-- Left-to-right scan for line 954 (lazily matched `/*` … `*/` comments
are removed; an opener with no closer anywhere after it stays in place —
the regex does not match there); `fuel` as in `subTrailingCommaGo`. -/
def stripBlockCommentsGo : Nat → List Char → List Char
  | 0, cs => cs
  | _ + 1, [] => []
  | fuel + 1, c :: rest =>
    match c, rest with
    | '/', '*' :: rest2 =>
      match afterBlockClose rest2 with
      | some rest3 => stripBlockCommentsGo fuel rest3
      | none => '/' :: '*' :: rest2
    | _, _ => c :: stripBlockCommentsGo fuel rest

/-- Line 954: remove lazily matched `/*` … `*/` block comments. -/
def stripBlockComments (cs : List Char) : List Char :=
  stripBlockCommentsGo cs.length cs

/-- Lines 958-968: normalize smart Unicode punctuation to ASCII. -/
def smartSub (c : Char) : List Char :=
  if c = '‘' ∨ c = '’' then ['\x27']
  else if c = '“' ∨ c = '”' then ['\x22']
  else if c = '–' then ['-']
  else if c = '—' then ['-', '-']
  else if c = '…' then ['.', '.', '.']
  else [c]

/-- Apply every smart-punctuation replacement. -/
def smartFix (cs : List Char) : List Char := (cs.map smartSub).flatten

/-- The full repair pipeline of `_parse_json` (lines 933-968), in source
order: strip, fenced-block extraction, brace slicing, trailing-comma
removal, line- then block-comment removal, smart-punctuation fixes. -/
def cleanChars (cs : List Char) : List Char :=
  let c1 := pyStripList cs
  let c2 := match extractFence c1 with
    | some inner => inner
    | none => c1
  let c3 := braceSlice c2
  let c4 := subTrailingComma c3
  let c5 := stripLineComments c4
  let c6 := stripBlockComments c5
  smartFix c6

/-- The cleaned text handed to `json.loads` by `_parse_json`. -/
def cleanText (s : String) : String := ⟨cleanChars s.data⟩

/-- `AssignmentService._parse_json` (lines 926-988).  `loads` abstracts
Python's stdlib `json.loads` applied to the cleaned text, with `none`
standing for `json.JSONDecodeError`.  An empty or whitespace-only input
short-circuits to the fallback.  On a successful parse the code returns the
dict-unpacking merge of fallback and data; when the decoded value is not a
mapping, that merge raises `TypeError`, which the final catch-all handler
absorbs by returning the fallback. -/
def parse_json (loads : String → Option Json) (text : String) (fallback : JDict) : JDict :=
  if pyStrip text = "" then fallback
  else
    match loads (cleanText text) with
    | some (Json.obj d) => pyMerge fallback d
    | some _ => fallback
    | none => fallback

/-- A small concrete stand-in for `json.loads`, agreeing with the real
parser on the handful of inputs used by the concrete witnesses below. -/
def loadsDemo : String → Option Json := fun s =>
  if s = "\x7b\"a\": 1\x7d" then some (Json.obj [("a", Json.num 1)])
  else if s = "[1, 2]" then some (Json.arr [Json.num 1, Json.num 2])
  else if s = "\x7b\"quiz_type\": \"socratic\", \"questions\": [\"q\"]\x7d" then
    some (Json.obj [("quiz_type", Json.str "socratic"), ("questions", Json.arr [Json.str "q"])])
  else none

/-- A `json.loads` stand-in for a backend that only ever produces
undecodable text. -/
def loadsNone : String → Option Json := fun _ => none

theorem jlookup_append (a b : JDict) (k : String) :
    jlookup (a ++ b) k = match jlookup a k with
      | some v => some v
      | none => jlookup b k := by
  induction a with
  | nil => simp [jlookup]
  | cons p rest ih =>
    by_cases h : p.1 = k <;> simp [jlookup, h, ih]

theorem jlookup_overrideWith (b a : JDict) (k : String) :
    jlookup (overrideWith b a) k = (jlookup a k).map (fun v => (jlookup b k).getD v) := by
  induction a with
  | nil => simp [overrideWith, jlookup]
  | cons p rest ih =>
    by_cases h : p.1 = k <;> simp [overrideWith, jlookup, h, ih]

theorem jlookup_filterKeys (a b : JDict) (k : String) (h : jlookup a k = none) :
    jlookup (b.filter (fun p => !(hasKey a p.1))) k = jlookup b k := by
  induction b with
  | nil => simp
  | cons p rest ih =>
    by_cases hk : p.1 = k
    · subst hk
      have hfa : hasKey a p.1 = false := by simp [hasKey, h]
      simp [List.filter, hfa, jlookup]
    · cases hf : hasKey a p.1 <;> simp [List.filter, hf, jlookup, hk, ih]

/-- The merge satisfies the Python overlay rule: fields of `b` win, every
other key falls back to `a`. -/
theorem jlookup_pyMerge (a b : JDict) (k : String) :
    jlookup (pyMerge a b) k = match jlookup b k with
      | some v => some v
      | none => jlookup a k := by
  unfold pyMerge
  rw [jlookup_append, jlookup_overrideWith]
  cases ha : jlookup a k with
  | some v => cases hb : jlookup b k <;> simp [hb]
  | none =>
    simp only [Option.map_none']
    rw [jlookup_filterKeys a b k ha]
    cases hb : jlookup b k <;> simp

theorem hasKey_pyMerge_left (a b : JDict) (k : String) (h : hasKey a k = true) :
    hasKey (pyMerge a b) k = true := by
  unfold hasKey at h ⊢
  rw [jlookup_pyMerge]
  cases hb : jlookup b k <;> simp_all

/-- The possible return values of `_parse_json`: the fallback itself, or
the overlay merge when the cleaned text decodes to a mapping. -/
theorem parse_json_cases (loads : String → Option Json) (text : String) (fallback : JDict) :
    parse_json loads text fallback = fallback
    ∨ ∃ d, loads (cleanText text) = some (Json.obj d)
        ∧ parse_json loads text fallback = pyMerge fallback d := by
  unfold parse_json
  split
  · exact Or.inl rfl
  · split
    · next d hload => exact Or.inr ⟨_, hload, rfl⟩
    · exact Or.inl rfl
    · exact Or.inl rfl

theorem hasKey_parse_json (loads : String → Option Json) (text : String)
    (fallback : JDict) (k : String) (h : hasKey fallback k = true) :
    hasKey (parse_json loads text fallback) k = true := by
  rcases parse_json_cases loads text fallback with hc | ⟨d, _, hc⟩ <;> rw [hc]
  · exact h
  · exact hasKey_pyMerge_left _ _ _ h

/-- Claim C1: for every generation-backend response text and every fallback
mapping, `_parse_json` returns a mapping containing every key of the
fallback; when the cleaned text decodes to a JSON object the result is the
fallback overlaid with the decoded fields (decoded fields win on key
collision); and an empty or whitespace-only input returns the fallback
unchanged. -/
theorem claim_C1_parse_json_overlay (loads : String → Option Json)
    (text : String) (fallback : JDict) :
    (∀ k : String, hasKey fallback k = true → hasKey (parse_json loads text fallback) k = true)
    ∧ (∀ d : JDict, pyStrip text ≠ "" → loads (cleanText text) = some (Json.obj d) →
        parse_json loads text fallback = pyMerge fallback d
        ∧ (∀ k v, jlookup d k = some v → jlookup (parse_json loads text fallback) k = some v)
        ∧ (∀ k, jlookup d k = none → jlookup (parse_json loads text fallback) k = jlookup fallback k))
    ∧ (pyStrip text = "" → parse_json loads text fallback = fallback) := by
  refine ⟨fun k => hasKey_parse_json loads text fallback k, fun d hne hload => ?_, fun he => ?_⟩
  · have heq : parse_json loads text fallback = pyMerge fallback d := by
      unfold parse_json
      rw [if_neg hne, hload]
    refine ⟨heq, fun k v hv => ?_, fun k hnone => ?_⟩
    · rw [heq, jlookup_pyMerge, hv]
    · rw [heq, jlookup_pyMerge, hnone]
  · unfold parse_json
    rw [if_pos he]

/-- Witness for C1 at concrete inputs: a whitespace-only response returns
the fallback unchanged, and a decodable response is overlaid onto the
fallback with the decoded field winning while the missing key survives. -/
theorem claim_C1_witness :
    parse_json loadsDemo "   " [("x", Json.null)] = [("x", Json.null)]
    ∧ parse_json loadsDemo "\x7b\"a\": 1\x7d" [("a", Json.str "fb"), ("b", Json.bool true)]
        = pyMerge [("a", Json.str "fb"), ("b", Json.bool true)] [("a", Json.num 1)]
    ∧ hasKey (parse_json loadsDemo "\x7b\"a\": 1\x7d"
        [("a", Json.str "fb"), ("b", Json.bool true)]) "b" = true := by
  refine ⟨(claim_C1_parse_json_overlay loadsDemo "   " [("x", Json.null)]).2.2 (by decide),
    ((claim_C1_parse_json_overlay loadsDemo "\x7b\"a\": 1\x7d"
        [("a", Json.str "fb"), ("b", Json.bool true)]).2.1
      [("a", Json.num 1)] (by decide) rfl).1,
    (claim_C1_parse_json_overlay loadsDemo "\x7b\"a\": 1\x7d"
        [("a", Json.str "fb"), ("b", Json.bool true)]).1 "b" rfl⟩

/-- Claim C10: when the repaired text decodes to a non-mapping JSON value
(bare array, string, number, boolean or null), the dict-unpacking merge
raises `TypeError`, the catch-all handler absorbs it and `_parse_json`
returns the caller-supplied fallback unchanged. -/
theorem claim_C10_nonmapping_returns_fallback (loads : String → Option Json)
    (text : String) (fallback : JDict) (j : Json)
    (hp : loads (cleanText text) = some j) (hno : ∀ d, j ≠ Json.obj d) :
    parse_json loads text fallback = fallback := by
  unfold parse_json
  split
  · rfl
  · rw [hp]
    cases j with
    | obj d => exact absurd rfl (hno d)
    | null => rfl
    | bool b => rfl
    | num n => rfl
    | str s => rfl
    | arr xs => rfl

/-- Witness for C10: a response decoding to the bare array `[1, 2]` leaves
the fallback untouched. -/
theorem claim_C10_witness :
    parse_json loadsDemo "[1, 2]" [("k", Json.null)] = [("k", Json.null)] :=
  claim_C10_nonmapping_returns_fallback loadsDemo "[1, 2]" [("k", Json.null)]
    (Json.arr [Json.num 1, Json.num 2]) rfl (fun _ h => Json.noConfusion h)

/-- Python `str.lower` (ASCII case mapping; subjects are ASCII). -/
def pyLower (s : String) : String := ⟨s.data.map Char.toLower⟩

/-- Subject → quiz schema type: the keys of the `quiz_formats` table and
the `.get` default of `_gen_quiz` (lines 459-646), matched on the
lower-cased subject. -/
def quizSchemaType (subject : String) : String :=
  let s := pyLower subject
  if s = "language" then "socratic"
  else if s = "math" then "practice"
  else if s = "science" then "practice_repeatable"
  else if s = "history" then "timeline_fill"
  else if s = "geography" then "practice_repeatable"
  else "standard"

/-- The fallback dict `_gen_quiz` passes to `_parse_json` (lines 653-657). -/
def quizFallback (subject : String) : JDict :=
  [("summary", Json.str (subject ++ " practice exercise")),
   ("quiz_type", Json.str (quizSchemaType subject)),
   ("questions", Json.arr [])]

/-- Python `len` on a decoded JSON value; `none` models the `TypeError`
raised on values without a length. -/
def pyLen : Json → Option Nat
  | Json.arr xs => some xs.length
  | Json.str s => some s.length
  | Json.obj fs => some fs.length
  | _ => none

/-- `result.get('questions', result.get('timeline_events', []))` of
line 660. -/
def questionItems (result : JDict) : Json :=
  dictGet result "questions" (dictGet result "timeline_events" (Json.arr []))

/-- The question count computed at line 660; `none` models the `len`
TypeError on an un-sizable value. -/
def questionCount (result : JDict) : Option Nat := pyLen (questionItems result)

/-- `_gen_quiz`'s retry loop (lines 650-668): the
`for attempt in range(max_retries)` with the local `max_retries = 2` is
unrolled.  `responses i` is the backend text of attempt `i` (failures
inside `_call_gemini_with_retry` propagate and are modelled separately);
the result pairs the returned dict with the number of generate-and-parse
cycles performed, and `Except.error` marks the `len` TypeError escaping.
When both attempts yield zero question-like items the loop falls through
and the last attempt's parse (`result`) is returned. -/
def gen_quiz (loads : String → Option Json) (responses : Nat → String) (subject : String) :
    Except Unit (JDict × Nat) :=
  match questionCount (parse_json loads (responses 0) (quizFallback subject)) with
  | none => Except.error ()
  | some c0 =>
    if 0 < c0 then Except.ok (parse_json loads (responses 0) (quizFallback subject), 1)
    else
      match questionCount (parse_json loads (responses 1) (quizFallback subject)) with
      | none => Except.error ()
      | some _ => Except.ok (parse_json loads (responses 1) (quizFallback subject), 2)

/-- Claim C3: `_gen_quiz` runs the generate-and-parse cycle at most 2
times; an attempt whose parse has at least one question-like item is
returned immediately (a single cycle when it is the first attempt), a
zero-item first attempt triggers exactly one more full cycle, and only
after both attempts yield zero items is a zero-item result (the fallback
shape) accepted. -/
theorem claim_C3_quiz_retry (loads : String → Option Json)
    (responses : Nat → String) (subject : String) :
    (∀ r n, gen_quiz loads responses subject = Except.ok (r, n) → 0 < n ∧ n ≤ 2)
    ∧ (∀ c, questionCount (parse_json loads (responses 0) (quizFallback subject)) = some c →
        0 < c →
        gen_quiz loads responses subject
          = Except.ok (parse_json loads (responses 0) (quizFallback subject), 1))
    ∧ (questionCount (parse_json loads (responses 0) (quizFallback subject)) = some 0 →
        ∀ c, questionCount (parse_json loads (responses 1) (quizFallback subject)) = some c →
          gen_quiz loads responses subject
            = Except.ok (parse_json loads (responses 1) (quizFallback subject), 2)
          ∧ (c = 0 →
              questionCount (parse_json loads (responses 1) (quizFallback subject)) = some 0)) := by
  refine ⟨?_, fun c hc hpos => ?_, fun h0 c hc => ?_⟩
  · intro r n h
    unfold gen_quiz at h
    split at h
    · exact absurd h (by simp)
    · split at h
      · cases h
        omega
      · split at h
        · exact absurd h (by simp)
        · cases h
          omega
  · unfold gen_quiz
    simp only [hc, if_pos hpos]
  · unfold gen_quiz
    simp only [h0, Nat.lt_irrefl, if_false, hc]
    exact ⟨trivial, fun hc0 => by rw [hc0]⟩

/-- Witness for C3: with a backend that always returns undecodable text,
both cycles run and the zero-question fallback shape is accepted. -/
theorem claim_C3_witness :
    gen_quiz loadsNone (fun _ => "x") "math"
      = Except.ok (parse_json loadsNone "x" (quizFallback "math"), 2)
    ∧ questionCount (parse_json loadsNone "x" (quizFallback "math")) = some 0 :=
  ⟨((claim_C3_quiz_retry loadsNone (fun _ => "x") "math").2.2 rfl 0 rfl).1,
   ((claim_C3_quiz_retry loadsNone (fun _ => "x") "math").2.2 rfl 0 rfl).2 rfl⟩

/-- The response of the C4 counterexample: well-formed JSON that carries
its own (wrong) `quiz_type` field together with a non-empty question list. -/
def c4response : String := "\x7b\"quiz_type\": \"socratic\", \"questions\": [\"q\"]\x7d"

/-- Claim C4 as stated is false on the code: for subject `math` (schema
type `practice`) a backend response that decodes with its own
`quiz_type` field is returned immediately, and the overlay lets the
decoded field win, so the returned structure's `quiz_type` is
`socratic`, not the subject's schema type. -/
theorem claim_C4_counterexample :
    gen_quiz loadsDemo (fun _ => c4response) "math"
      = Except.ok (pyMerge (quizFallback "math")
          [("quiz_type", Json.str "socratic"), ("questions", Json.arr [Json.str "q"])], 1)
    ∧ jlookup (pyMerge (quizFallback "math")
          [("quiz_type", Json.str "socratic"), ("questions", Json.arr [Json.str "q"])])
        "quiz_type" = some (Json.str "socratic")
    ∧ quizSchemaType "math" = "practice" :=
  ⟨rfl, rfl, rfl⟩

/-- The decoded response (if any) carries a `quiz_type` field of its own. -/
def suppliesQuizType (loads : String → Option Json) (t : String) : Prop :=
  ∃ d, loads (cleanText t) = some (Json.obj d) ∧ hasKey d "quiz_type" = true

theorem jlookup_quizFallback_type (subject : String) :
    jlookup (quizFallback subject) "quiz_type" = some (Json.str (quizSchemaType subject)) := by
  simp [quizFallback, jlookup]

theorem parse_json_quizType (loads : String → Option Json) (t : String) (subject : String)
    (h : ¬ suppliesQuizType loads t) :
    jlookup (parse_json loads t (quizFallback subject)) "quiz_type"
      = some (Json.str (quizSchemaType subject)) := by
  rcases parse_json_cases loads t (quizFallback subject) with hc | ⟨d, hload, hc⟩
  · rw [hc, jlookup_quizFallback_type]
  · rw [hc, jlookup_pyMerge]
    have hd : jlookup d "quiz_type" = none := by
      cases hda : jlookup d "quiz_type" with
      | none => rfl
      | some v => exact absurd ⟨d, hload, by simp [hasKey, hda]⟩ h
    rw [hd, jlookup_quizFallback_type]

/-- Claim C4 (amended): the structure `_gen_quiz` returns always contains
the key `quiz_type`, and its value equals the subject's assigned schema
type whenever the successfully decoded backend response does not itself
carry a `quiz_type` field — in particular for empty, undecodable and
zero-question responses; a decoded `quiz_type` field overrides the schema
type by the overlay rule. -/
theorem claim_C4_quiz_type_amended (loads : String → Option Json)
    (responses : Nat → String) (subject : String) :
    (∀ r n, gen_quiz loads responses subject = Except.ok (r, n) → hasKey r "quiz_type" = true)
    ∧ ((¬ suppliesQuizType loads (responses 0)) → (¬ suppliesQuizType loads (responses 1)) →
        ∀ r n, gen_quiz loads responses subject = Except.ok (r, n) →
          jlookup r "quiz_type" = some (Json.str (quizSchemaType subject))) := by
  have hshape : ∀ r n, gen_quiz loads responses subject = Except.ok (r, n) →
      r = parse_json loads (responses 0) (quizFallback subject)
      ∨ r = parse_json loads (responses 1) (quizFallback subject) := by
    intro r n h
    unfold gen_quiz at h
    split at h
    · exact absurd h (by simp)
    · split at h
      · cases h
        exact Or.inl rfl
      · split at h
        · exact absurd h (by simp)
        · cases h
          exact Or.inr rfl
  constructor
  · intro r n h
    rcases hshape r n h with hr | hr <;> rw [hr]
    all_goals exact hasKey_parse_json _ _ _ _ (by simp [hasKey, jlookup_quizFallback_type])
  · intro h0 h1 r n h
    rcases hshape r n h with hr | hr <;> rw [hr]
    · exact parse_json_quizType loads (responses 0) subject h0
    · exact parse_json_quizType loads (responses 1) subject h1

/-- Witness for the amended C4: an always-undecodable backend yields the
fallback shape whose `quiz_type` is the subject's schema type. -/
theorem claim_C4_amended_witness :
    jlookup (parse_json loadsNone "x" (quizFallback "language")) "quiz_type"
      = some (Json.str "socratic") := by
  have h : ∀ t : String, ¬ suppliesQuizType loadsNone t := by
    rintro t ⟨d, hd, -⟩
    exact Option.noConfusion hd
  have := (claim_C4_quiz_type_amended loadsNone (fun _ => "x") "language").2 (h _) (h _)
    (parse_json loadsNone "x" (quizFallback "language")) 2 rfl
  rw [show quizSchemaType "language" = "socratic" from rfl] at this
  exact this

/-- One part of a multi-part Gemini candidate; `text = none` models a part
object without a `text` attribute. -/
structure GPart where
  text : Option String

/-- One candidate of a Gemini response; `parts = none` models a candidate
without `content`/`content.parts` attributes. -/
structure GCandidate where
  parts : Option (List GPart)

/-- A `generate_content` response as consumed by lines 284-297:
`textAttr` models the `resp.text` accessor (`Except.error` is the
`ValueError` it raises on a multi-part response) and `candidates` models
`resp.candidates` behind the `hasattr` guard. -/
structure GResp where
  textAttr : Except Unit String
  candidates : Option (List GCandidate)

/-- Text contributed by one candidate in the multi-part path
(lines 292-297). -/
def candidateText (c : GCandidate) : String :=
  match c.parts with
  | some ps => String.join (ps.filterMap GPart.text)
  | none => ""

/-- Lines 286-297: prefer `resp.text`; on its `ValueError` concatenate the
`text` of every part of every candidate in order (an absent or empty
candidate list contributes the empty string). -/
def extractRespText (r : GResp) : String :=
  match r.textAttr with
  | Except.ok s => s
  | Except.error _ =>
    match r.candidates with
    | some cs => String.join (cs.map candidateText)
    | none => ""

/-- The `for attempt in range(max_retries)` loop of
`_call_gemini_with_retry` (lines 282-308), structurally recursive on the
number of remaining iterations.  `generate i` is the backend outcome of
attempt `i` (`model.generate_content`); errors of type `E` stand for the
raised exception objects.  Returns (outcome, attempts made, sleep delays
performed): the bare `raise` on the final attempt re-raises the very
exception object of that attempt, earlier failures sleep 2 seconds and
retry, and a completed loop without any attempt returns the empty string
(line 308). -/
def callGeminiGo {E : Type} (generate : Nat → Except E GResp) :
    Nat → Nat → List Nat → Except E String × Nat × List Nat
  | 0, attempt, sleeps => (Except.ok "", attempt, sleeps)
  | rem + 1, attempt, sleeps =>
    match generate attempt with
    | Except.ok resp => (Except.ok (extractRespText resp), attempt + 1, sleeps)
    | Except.error e =>
      if rem = 0 then (Except.error e, attempt + 1, sleeps)
      else callGeminiGo generate rem (attempt + 1) (sleeps ++ [2])

/-- `_call_gemini_with_retry` (lines 277-308); every call site uses the
default `max_retries = 2`. -/
def call_gemini_with_retry {E : Type} (generate : Nat → Except E GResp)
    (maxRetries : Nat) : Except E String × Nat × List Nat :=
  callGeminiGo generate maxRetries 0 []

/-- Claim C7: with the default bound of 2, `_call_gemini_with_retry` makes
at most 2 backend attempts, sleeping the fixed 2-second delay exactly
between the two attempts; a failing final attempt propagates that very
exception un-wrapped; a successful attempt returns the extracted text,
which for a multi-part response (a `resp.text` ValueError) is the
concatenation of all parts of all candidates. -/
theorem claim_C7_gemini_retry {E : Type} (generate : Nat → Except E GResp) :
    ((call_gemini_with_retry generate 2).2.1 ≤ 2)
    ∧ (∀ resp, generate 0 = Except.ok resp →
        call_gemini_with_retry generate 2 = (Except.ok (extractRespText resp), 1, []))
    ∧ (∀ e resp, generate 0 = Except.error e → generate 1 = Except.ok resp →
        call_gemini_with_retry generate 2 = (Except.ok (extractRespText resp), 2, [2]))
    ∧ (∀ e e2, generate 0 = Except.error e → generate 1 = Except.error e2 →
        call_gemini_with_retry generate 2 = (Except.error e2, 2, [2]))
    ∧ (∀ r cs, r.textAttr = Except.error () → r.candidates = some cs →
        extractRespText r = String.join (cs.map candidateText)) := by
  refine ⟨?_, fun resp h0 => ?_, fun e resp h0 h1 => ?_, fun e e2 h0 h1 => ?_,
    fun r cs ht hc => ?_⟩
  · cases h0 : generate 0 with
    | ok resp => simp [call_gemini_with_retry, callGeminiGo, h0]
    | error e =>
      cases h1 : generate 1 with
      | ok resp => simp [call_gemini_with_retry, callGeminiGo, h0, h1]
      | error e2 => simp [call_gemini_with_retry, callGeminiGo, h0, h1]
  · simp [call_gemini_with_retry, callGeminiGo, h0]
  · simp [call_gemini_with_retry, callGeminiGo, h0, h1]
  · simp [call_gemini_with_retry, callGeminiGo, h0, h1]
  · simp [extractRespText, ht, hc]

/-- A backend that times out on every attempt, with distinguishable
exception objects per attempt. -/
def generateTimeouts : Nat → Except String GResp := fun n =>
  Except.error ("504 Deadline Exceeded on attempt " ++ toString n)

/-- Witness for C7: the always-failing backend is tried exactly twice,
one 2-second sleep happens in between, and the second attempt's own
exception propagates. -/
theorem claim_C7_witness :
    call_gemini_with_retry generateTimeouts 2
      = (Except.error "504 Deadline Exceeded on attempt 1", 2, [2]) :=
  (claim_C7_gemini_retry generateTimeouts).2.2.2.1
    "504 Deadline Exceeded on attempt 0" "504 Deadline Exceeded on attempt 1" rfl rfl

/-- Outcome of the external `ffmpeg` invocation at lines 894-902:
`completed` carries the exit code and whether the output file exists
afterwards; the other constructors are the `FileNotFoundError`,
`subprocess.TimeoutExpired` (30-second bound) and generic exception
handlers of lines 913-923. -/
inductive FfmpegOutcome where
  | completed (returncode : Int) (outputExists : Bool) : FfmpegOutcome
  | timedOut : FfmpegOutcome
  | toolMissing : FfmpegOutcome
  | errored : FfmpegOutcome

/-- `result.returncode == 0 and os.path.exists(output_path)` — the only
path on which the muxed artifact is returned. -/
def muxSuccess : FfmpegOutcome → Bool
  | FfmpegOutcome.completed rc outputExists => (rc == 0) && outputExists
  | _ => false

/-- `_add_audio_to_video` (lines 868-923): checks the video exists, skips
the mux entirely below the 10000-byte placeholder floor, and otherwise
invokes ffmpeg, returning the combined output only on full success and the
original silent video path on every failure.  The second component records
whether ffmpeg was invoked. -/
def add_audio_to_video (videoExists : Bool) (videoSize : Nat)
    (ffmpeg : FfmpegOutcome) (videoPath outputPath : String) : String × Bool :=
  if !videoExists then (videoPath, false)
  else if videoSize < 10000 then (videoPath, false)
  else
    match ffmpeg with
    | FfmpegOutcome.completed rc outputExists =>
      if rc = 0 ∧ outputExists = true then (outputPath, true) else (videoPath, true)
    | _ => (videoPath, true)

/-- Claim C8: a video below the 10KB size floor skips the mux step and the
original path is returned unchanged (ffmpeg is never invoked); and on every
ffmpeg failure — non-zero exit, missing output, timeout, tool not
installed, or any other error — the original silent video path is returned
(the function never raises: it is total by construction). -/
theorem claim_C8_mux_policy (videoExists : Bool) (videoSize : Nat)
    (ffmpeg : FfmpegOutcome) (videoPath outputPath : String) :
    (videoSize < 10000 →
      add_audio_to_video videoExists videoSize ffmpeg videoPath outputPath = (videoPath, false))
    ∧ (muxSuccess ffmpeg = false →
      (add_audio_to_video videoExists videoSize ffmpeg videoPath outputPath).1 = videoPath) := by
  constructor
  · intro hsize
    unfold add_audio_to_video
    cases videoExists <;> simp [hsize]
  · intro hfail
    unfold add_audio_to_video
    cases videoExists
    · simp
    · by_cases hsize : videoSize < 10000
      · simp [hsize]
      · cases ffmpeg with
        | completed rc outputExists =>
          have : ¬ (rc = 0 ∧ outputExists = true) := by
            intro hx
            rw [muxSuccess, hx.1, hx.2] at hfail
            simp at hfail
          simp [hsize, this]
        | timedOut => simp [hsize]
        | toolMissing => simp [hsize]
        | errored => simp [hsize]

/-- Witness for C8: a 4KB placeholder skips the mux; a timed-out ffmpeg on
a real-sized video still yields the original path. -/
theorem claim_C8_witness :
    add_audio_to_video true 4096 (FfmpegOutcome.completed 0 true) "visual_silent.mp4" "visual.mp4"
      = ("visual_silent.mp4", false)
    ∧ (add_audio_to_video true 50000 FfmpegOutcome.timedOut "visual_silent.mp4" "visual.mp4").1
      = "visual_silent.mp4" :=
  ⟨(claim_C8_mux_policy true 4096 (FfmpegOutcome.completed 0 true)
      "visual_silent.mp4" "visual.mp4").1 (by decide),
   (claim_C8_mux_policy true 50000 FfmpegOutcome.timedOut
      "visual_silent.mp4" "visual.mp4").2 rfl⟩

/-- Lines 150-158 (and identically 96-104): collect the stripped raw-text
field and the stripped extracted file text, in that order, skipping
Python-falsy (absent or empty) sources.  `originalContent` is
`assignment.original_content`; `fileText` is the `extract_text` result
when a file path is present (`extract_text` returns `None` on failure). -/
def buildParts (originalContent fileText : Option String) : List String :=
  (match originalContent with
   | some s => if s = "" then [] else [pyStrip s]
   | none => []) ++
  (match fileText with
   | some s => if s = "" then [] else [pyStrip s]
   | none => [])

/-- `"\n\n".join(text_parts) if text_parts else None` (line 158). -/
def joinParts (parts : List String) : Option String :=
  if parts.isEmpty then none else some (String.intercalate "\n\n" parts)

/-- The literal truncation marker appended at lines 167 and 110. -/
def truncMarker : String := "\n\n[Content truncated for processing]"

/-- Python slicing `s[:n]`, counting code points as Python does. -/
def pyTake (s : String) (n : Nat) : String := ⟨s.data.take n⟩

/-- Lines 165-167 (and 109-110): texts longer than 4000 characters are cut
to their first 4000 characters with the truncation marker appended. -/
def truncateBase (s : String) : String :=
  if 4000 < s.length then pyTake s 4000 ++ truncMarker else s

/-- Full base-text preparation of `_generate_all_variants`
(lines 149-167) and `regenerate_variant` (lines 96-110), performed before
any variant generation uses the text: build, reject missing content (the
`ValueError("No content found in assignment")`), truncate. -/
def prepareBaseText (originalContent fileText : Option String) : Except Unit String :=
  match joinParts (buildParts originalContent fileText) with
  | none => Except.error ()
  | some s => if s = "" then Except.error () else Except.ok (truncateBase s)

/-- Claim C9: when both a raw-text field and a file are supplied, the
combined text is the stripped file text concatenated after the stripped raw
text, separated by a blank line; and any combined text longer than 4000
characters is truncated to its first 4000 characters with the explicit
truncation marker appended, before any variant generation uses it. -/
theorem claim_C9_combine_truncate (o f : String) (ho : o ≠ "") (hf : f ≠ "") :
    prepareBaseText (some o) (some f)
      = Except.ok (truncateBase (pyStrip o ++ "\n\n" ++ pyStrip f))
    ∧ (∀ s : String, 4000 < s.length →
        truncateBase s = pyTake s 4000 ++ "\n\n[Content truncated for processing]"
        ∧ (truncateBase s).length = 4000 + truncMarker.length) := by
  constructor
  · have hjoin : String.intercalate "\n\n" [pyStrip o, pyStrip f]
        = pyStrip o ++ "\n\n" ++ pyStrip f := rfl
    have hne2 : pyStrip o ++ "\n\n" ++ pyStrip f ≠ "" := by
      intro hcontra
      have hlen : (pyStrip o ++ "\n\n" ++ pyStrip f).length = 0 := by
        rw [hcontra]
        rfl
      rw [String.length_append, String.length_append] at hlen
      have h2 : ("\n\n" : String).length = 2 := rfl
      omega
    unfold prepareBaseText joinParts buildParts
    dsimp only
    rw [if_neg ho, if_neg hf]
    simp only [List.singleton_append, List.isEmpty_cons, Bool.false_eq_true, if_false, hjoin]
    rw [if_neg hne2]
  · intro s hs
    unfold truncateBase
    rw [if_pos hs]
    refine ⟨rfl, ?_⟩
    rw [String.length_append]
    have ht : (pyTake s 4000).length = min 4000 s.length := by
      show (s.data.take 4000).length = min 4000 s.length
      rw [List.length_take]
      rfl
    omega

/-- A 4001-character text, exceeding the cap by one. -/
def longDemo : String := ⟨List.replicate 4001 'a'⟩

/-- Witness for C9 at concrete inputs: two short sources are joined with a
blank line and left untruncated; the 4001-character text is cut at 4000
with the marker appended. -/
theorem claim_C9_witness :
    prepareBaseText (some " lesson text ") (some "file text")
      = Except.ok "lesson text\n\nfile text"
    ∧ truncateBase longDemo
      = pyTake longDemo 4000 ++ "\n\n[Content truncated for processing]" := by
  constructor
  · have h := (claim_C9_combine_truncate " lesson text " "file text"
      (by decide) (by decide)).1
    rw [h]
    rfl
  · have hlen : (4000 : Nat) < longDemo.length := by
      show (4000 : Nat) < (List.replicate 4001 'a').length
      rw [List.length_replicate]
      omega
    exact ((claim_C9_combine_truncate "x" "y" (by decide) (by decide)).2
      longDemo hlen).1

/-- The `assignments` row fields the claims depend on (`models.py`
lines 212-233): lifecycle status and optional error message. -/
structure ARow where
  status : String
  errorMessage : Option String
  deriving Repr, DecidableEq

/-- An `assignment_versions` row (`models.py` lines 256-282), restricted
to the fields the claims depend on. -/
structure VRow where
  assignmentId : String
  variantType : String
  contentText : String
  assets : String
  deriving Repr, DecidableEq

/-- Two variant rows collide on the unique index
`idx_assignment_variant_unique` (`models.py` lines 280-282). -/
def sameKey (a b : VRow) : Prop :=
  a.assignmentId = b.assignmentId ∧ a.variantType = b.variantType

/-- Boolean test: inserting `v` into `rows` would violate the unique
index. -/
def keyConflict (rows : List VRow) (v : VRow) : Bool :=
  rows.any (fun r => r.assignmentId == v.assignmentId && r.variantType == v.variantType)

/-- Variant INSERTs checked against the unique index
`idx_assignment_variant_unique`: a row whose (assignment_id, variant_type)
pair is already present is rejected (the database raises IntegrityError). -/
def insertVariants (rows : List VRow) : List VRow → Except Unit (List VRow)
  | [] => Except.ok rows
  | v :: rest =>
    if keyConflict rows v then Except.error ()
    else insertVariants (rows ++ [v]) rest

/-- The database invariant of claim C6: at most one variant row per
(assignment_id, variant_type) pair. -/
def uniqueInv (rows : List VRow) : Prop :=
  List.Pairwise (fun a b => ¬ sameKey a b) rows

/-- Session-and-database state during `create_assignment`, for the one
assignment being created.  `dbAssignment`/`dbVariants` are the committed
rows; `aStatus`/`aError` the in-memory attribute values of the
`Assignment` object; `aAttached` whether that object is still attached to
the session (it starts pending after `db.session.add`); `aCommitted`
whether its INSERT has been committed; `pendingVariants` the added but
uncommitted variant rows. -/
structure OrchState where
  dbAssignment : Option ARow
  dbVariants : List VRow
  aStatus : String
  aError : Option String
  aAttached : Bool
  aCommitted : Bool
  pendingVariants : List VRow
  deriving Repr, DecidableEq

/-- `db.session.commit()` in this flow: flush the pending variant INSERTs
through the unique index, write the attached assignment object (INSERT or
UPDATE of its current attributes), clear the transaction.  A detached
(expunged) assignment object is not written. -/
def commitOp (s : OrchState) : Except Unit OrchState :=
  match insertVariants s.dbVariants s.pendingVariants with
  | Except.error _ => Except.error ()
  | Except.ok rows =>
    Except.ok { s with
      dbVariants := rows,
      pendingVariants := [],
      dbAssignment := if s.aAttached then some ⟨s.aStatus, s.aError⟩ else s.dbAssignment,
      aCommitted := s.aCommitted || s.aAttached }

/-- `db.session.rollback()`, following SQLAlchemy's documented semantics:
uncommitted work is discarded; an object that was pending when added
within the transaction and whose INSERT was never committed is expunged
from the session (its attribute values remain but later commits ignore
it); an already-committed object stays attached and its attributes are
expired back to the committed row. -/
def rollbackOp (s : OrchState) : OrchState :=
  { s with
    pendingVariants := [],
    aAttached := s.aAttached && s.aCommitted,
    aStatus := match s.dbAssignment with
      | some r => if s.aCommitted then r.status else s.aStatus
      | none => s.aStatus,
    aError := match s.dbAssignment with
      | some r => if s.aCommitted then r.errorMessage else s.aError
      | none => s.aError }

/-- State right after lines 61-71 of `create_assignment`: the assignment
object is added in status `generating` and flushed (INSERT issued inside
the open transaction, nothing committed). -/
def initOrch : OrchState :=
  { dbAssignment := none, dbVariants := [], aStatus := "generating",
    aError := none, aAttached := true, aCommitted := false, pendingVariants := [] }

/-- The body of `_generate_all_variants` as seen by the orchestrator: each
step either raises (carrying the exception message) or produces a variant
row that `_persist_variant` adds and commits (lines 1009-1022).  The first
step also covers extraction failure (`ValueError` before any persistence).
On an escaping exception the state at raise time is returned alongside the
message. -/
def runVariantSteps : OrchState → List (Except String VRow) → Except (String × OrchState) OrchState
  | s, [] => Except.ok s
  | s, Except.error msg :: _ => Except.error (msg, s)
  | s, Except.ok v :: rest =>
    match commitOp { s with pendingVariants := s.pendingVariants ++ [v] } with
    | Except.ok s2 => runVariantSteps s2 rest
    | Except.error _ =>
      Except.error ("IntegrityError: UNIQUE constraint failed",
        { s with pendingVariants := s.pendingVariants ++ [v] })

/-- `create_assignment` (lines 59-89): add and flush the new assignment,
run the variant steps; on success set status `ready` and commit; on an
escaping exception roll back, set status `failed` with the exception
message, commit, and re-raise.  Returns the raised outcome together with
the final session/database state. -/
def create_assignment (steps : List (Except String VRow)) : Except String Unit × OrchState :=
  match runVariantSteps initOrch steps with
  | Except.ok s1 =>
    match commitOp { s1 with aStatus := "ready" } with
    | Except.ok s2 => (Except.ok (), s2)
    | Except.error _ => (Except.error "IntegrityError", { s1 with aStatus := "ready" })
  | Except.error (msg, s1) =>
    match commitOp { rollbackOp s1 with aStatus := "failed", aError := some msg } with
    | Except.ok s4 => (Except.error msg, s4)
    | Except.error _ =>
      (Except.error msg, { rollbackOp s1 with aStatus := "failed", aError := some msg })

/-- Membership test used by `regenerate_variant`'s
`filter_by(assignment_id=..., variant_type='quiz')`. -/
def isQuizRow (aid : String) (v : VRow) : Bool :=
  v.assignmentId == aid && v.variantType == "quiz"

/-- Update the first row matching `p` (the `.first()` result) in place. -/
def updateFirst (p : VRow → Bool) (f : VRow → VRow) : List VRow → List VRow
  | [] => []
  | v :: rest => if p v then f v :: rest else v :: updateFirst p f rest

/-- `regenerate_variant` for `variant_type='quiz'` (lines 91-143), success
path after `_gen_quiz` computed the new quiz: the existing quiz row for
the assignment is updated in place (content and assets replaced) when one
exists, and a row is created only when none exists; the assignment row
itself is never touched. -/
def regenerate_quiz (dbA : ARow) (vars : List VRow) (aid : String)
    (quizContent quizAssets : String) : ARow × List VRow :=
  match vars.find? (isQuizRow aid) with
  | some _ =>
    (dbA, updateFirst (isQuizRow aid)
      (fun v => { v with contentText := quizContent, assets := quizAssets }) vars)
  | none =>
    (dbA, vars ++ [{ assignmentId := aid, variantType := "quiz",
                     contentText := quizContent, assets := quizAssets }])

/-- Number of quiz rows for one assignment. -/
def quizCount (aid : String) (vars : List VRow) : Nat :=
  (vars.filter (isQuizRow aid)).length

theorem keyConflict_eq_false (rows : List VRow) (v : VRow) :
    keyConflict rows v = false ↔ ∀ r ∈ rows, ¬ sameKey r v := by
  unfold keyConflict sameKey
  rw [List.any_eq_false]
  simp [Bool.and_eq_true, beq_iff_eq, not_and]

theorem uniqueInv_append_one (rows : List VRow) (v : VRow)
    (h : uniqueInv rows) (hc : keyConflict rows v = false) :
    uniqueInv (rows ++ [v]) := by
  unfold uniqueInv at h ⊢
  rw [List.pairwise_append]
  refine ⟨h, List.pairwise_singleton _ _, ?_⟩
  intro a ha b hb
  simp only [List.mem_singleton] at hb
  subst hb
  exact (keyConflict_eq_false rows b).1 hc a ha

theorem insertVariants_ok_unique :
    ∀ (pending rows rows' : List VRow), uniqueInv rows →
      insertVariants rows pending = Except.ok rows' → uniqueInv rows' := by
  intro pending
  induction pending with
  | nil =>
    intro rows rows' h hok
    unfold insertVariants at hok
    cases hok
    exact h
  | cons v rest ih =>
    intro rows rows' h hok
    unfold insertVariants at hok
    by_cases hc : keyConflict rows v = true
    · rw [if_pos hc] at hok
      exact absurd hok (by simp)
    · rw [if_neg hc] at hok
      exact ih (rows ++ [v]) rows'
        (uniqueInv_append_one rows v h (by revert hc; cases keyConflict rows v <;> simp)) hok

theorem insertVariants_rejects (rows : List VRow) (v : VRow)
    (h : keyConflict rows v = true) :
    insertVariants rows [v] = Except.error () := by
  unfold insertVariants
  rw [if_pos h]

theorem commitOp_unique (s : OrchState) (s' : OrchState)
    (h : uniqueInv s.dbVariants) (hc : commitOp s = Except.ok s') :
    uniqueInv s'.dbVariants := by
  unfold commitOp at hc
  cases hins : insertVariants s.dbVariants s.pendingVariants with
  | error e => rw [hins] at hc; exact absurd hc (by simp)
  | ok rows =>
    rw [hins] at hc
    cases hc
    exact insertVariants_ok_unique s.pendingVariants s.dbVariants rows h hins

theorem runVariantSteps_unique :
    ∀ (steps : List (Except String VRow)) (s : OrchState), uniqueInv s.dbVariants →
      (∀ s', runVariantSteps s steps = Except.ok s' → uniqueInv s'.dbVariants)
      ∧ (∀ m s', runVariantSteps s steps = Except.error (m, s') → uniqueInv s'.dbVariants) := by
  intro steps
  induction steps with
  | nil =>
    intro s h
    refine ⟨fun s' hs => ?_, fun m s' hs => ?_⟩
    · unfold runVariantSteps at hs
      cases hs
      exact h
    · exact absurd hs (by simp [runVariantSteps])
  | cons step rest ih =>
    intro s h
    cases step with
    | error msg =>
      refine ⟨fun s' hs => ?_, fun m s' hs => ?_⟩
      · exact absurd hs (by simp [runVariantSteps])
      · unfold runVariantSteps at hs
        cases hs
        exact h
    | ok v =>
      refine ⟨fun s' hs => ?_, fun m s' hs => ?_⟩
      · unfold runVariantSteps at hs
        cases hcommit : commitOp { s with pendingVariants := s.pendingVariants ++ [v] } with
        | ok s2 =>
          rw [hcommit] at hs
          have h2 : uniqueInv s2.dbVariants :=
            commitOp_unique { s with pendingVariants := s.pendingVariants ++ [v] } s2 h hcommit
          exact (ih s2 h2).1 s' hs
        | error e =>
          rw [hcommit] at hs
          exact absurd hs (by simp)
      · unfold runVariantSteps at hs
        cases hcommit : commitOp { s with pendingVariants := s.pendingVariants ++ [v] } with
        | ok s2 =>
          rw [hcommit] at hs
          have h2 : uniqueInv s2.dbVariants :=
            commitOp_unique { s with pendingVariants := s.pendingVariants ++ [v] } s2 h hcommit
          exact (ih s2 h2).2 m s' hs
        | error e =>
          rw [hcommit] at hs
          simp only [Except.error.injEq, Prod.mk.injEq] at hs
          rw [← hs.2]
          exact h

theorem create_assignment_unique (steps : List (Except String VRow)) :
    uniqueInv (create_assignment steps).2.dbVariants := by
  have hinit : uniqueInv initOrch.dbVariants := List.Pairwise.nil
  unfold create_assignment
  cases hrun : runVariantSteps initOrch steps with
  | ok s1 =>
    have h1 : uniqueInv s1.dbVariants := (runVariantSteps_unique steps initOrch hinit).1 s1 hrun
    dsimp only
    cases hcommit : commitOp { s1 with aStatus := "ready" } with
    | ok s2 =>
      dsimp only
      exact commitOp_unique { s1 with aStatus := "ready" } s2 h1 hcommit
    | error e =>
      dsimp only
      exact h1
  | error p =>
    obtain ⟨msg, s1⟩ := p
    have h1 : uniqueInv s1.dbVariants :=
      (runVariantSteps_unique steps initOrch hinit).2 msg s1 hrun
    have hroll : uniqueInv (rollbackOp s1).dbVariants := h1
    dsimp only
    cases hcommit : commitOp { rollbackOp s1 with aStatus := "failed", aError := some msg } with
    | ok s4 =>
      dsimp only
      exact commitOp_unique { rollbackOp s1 with aStatus := "failed", aError := some msg }
        s4 hroll hcommit
    | error e =>
      dsimp only
      exact hroll

theorem mem_updateFirst (p : VRow → Bool) (f : VRow → VRow) :
    ∀ (l : List VRow) (b : VRow), b ∈ updateFirst p f l →
      ∃ a, a ∈ l ∧ (b = a ∨ b = f a) := by
  intro l
  induction l with
  | nil => intro b hb; exact absurd hb (by simp [updateFirst])
  | cons v rest ih =>
    intro b hb
    unfold updateFirst at hb
    by_cases hv : p v = true
    · rw [if_pos hv] at hb
      rcases List.mem_cons.1 hb with hb | hb
      · exact ⟨v, List.mem_cons_self v rest, Or.inr hb⟩
      · exact ⟨b, List.mem_cons_of_mem v hb, Or.inl rfl⟩
    · rw [if_neg hv] at hb
      rcases List.mem_cons.1 hb with hb | hb
      · exact ⟨v, List.mem_cons_self v rest, Or.inl hb⟩
      · obtain ⟨a, ha, hba⟩ := ih b hb
        exact ⟨a, List.mem_cons_of_mem v ha, hba⟩

theorem uniqueInv_updateFirst (aid qc qa : String) :
    ∀ (vars : List VRow), uniqueInv vars →
      uniqueInv (updateFirst (isQuizRow aid)
        (fun v => { v with contentText := qc, assets := qa }) vars) := by
  intro vars
  induction vars with
  | nil => intro h; exact h
  | cons v rest ih =>
    intro h
    have hpair := (List.pairwise_cons.1 h)
    unfold updateFirst
    by_cases hv : isQuizRow aid v = true
    · rw [if_pos hv]
      exact List.pairwise_cons.2 ⟨fun b hb => hpair.1 b hb, hpair.2⟩
    · rw [if_neg hv]
      refine List.pairwise_cons.2 ⟨fun b hb => ?_, ih hpair.2⟩
      obtain ⟨a, ha, hba⟩ := mem_updateFirst _ _ rest b hb
      rcases hba with hba | hba
      · rw [hba]
        exact hpair.1 a ha
      · rw [hba]
        exact hpair.1 a ha

theorem quizCount_updateFirst (aid qc qa : String) :
    ∀ (vars : List VRow),
      quizCount aid (updateFirst (isQuizRow aid)
        (fun v => { v with contentText := qc, assets := qa }) vars) = quizCount aid vars := by
  intro vars
  induction vars with
  | nil => rfl
  | cons v rest ih =>
    unfold updateFirst
    by_cases hv : isQuizRow aid v = true
    · rw [if_pos hv]
      unfold quizCount
      have hfv : isQuizRow aid { v with contentText := qc, assets := qa } = true := hv
      simp [List.filter, hfv, hv]
    · rw [if_neg hv]
      unfold quizCount at ih ⊢
      simp [List.filter, hv, ih]

theorem quizCount_pos_of_find (aid : String) (vars : List VRow) (v : VRow)
    (h : vars.find? (isQuizRow aid) = some v) : 0 < quizCount aid vars := by
  have hv : isQuizRow aid v = true := List.find?_some h
  have hmem : v ∈ vars := List.mem_of_find?_eq_some h
  have : v ∈ vars.filter (isQuizRow aid) := List.mem_filter.2 ⟨hmem, hv⟩
  unfold quizCount
  exact List.length_pos.2 (List.ne_nil_of_mem this)

theorem quizCount_zero_of_find_none (aid : String) (vars : List VRow)
    (h : vars.find? (isQuizRow aid) = none) : quizCount aid vars = 0 := by
  unfold quizCount
  rw [List.length_eq_zero]
  rw [List.filter_eq_nil_iff]
  intro a ha
  have := List.find?_eq_none.1 h a ha
  simpa using this

/-- Claim C5: regenerating the quiz variant never creates a second quiz
row for the assignment — the quiz-row count becomes `max old 1` (an
existing row is updated in place, a row is created only when none exists),
so under the uniqueness invariant the operation leaves exactly one quiz
row and is idempotent; the assignment row (hence its overall status) is
returned unchanged. -/
theorem claim_C5_regenerate_upsert (dbA : ARow) (vars : List VRow) (aid qc qa : String) :
    (regenerate_quiz dbA vars aid qc qa).1 = dbA
    ∧ quizCount aid (regenerate_quiz dbA vars aid qc qa).2 = max (quizCount aid vars) 1
    ∧ (quizCount aid vars ≤ 1 →
        quizCount aid (regenerate_quiz dbA vars aid qc qa).2 = 1) := by
  cases hfind : vars.find? (isQuizRow aid) with
  | some v =>
    have hpos := quizCount_pos_of_find aid vars v hfind
    have hcount : quizCount aid (regenerate_quiz dbA vars aid qc qa).2 = quizCount aid vars := by
      unfold regenerate_quiz
      rw [hfind]
      exact quizCount_updateFirst aid qc qa vars
    refine ⟨by unfold regenerate_quiz; rw [hfind], ?_, ?_⟩
    · rw [hcount]
      omega
    · intro hle
      rw [hcount]
      omega
  | none =>
    have hzero := quizCount_zero_of_find_none aid vars hfind
    have hcount : quizCount aid (regenerate_quiz dbA vars aid qc qa).2 = 1 := by
      unfold regenerate_quiz
      rw [hfind]
      unfold quizCount
      rw [List.filter_append, List.length_append]
      unfold quizCount at hzero
      rw [hzero]
      simp [List.filter, isQuizRow]
    refine ⟨by unfold regenerate_quiz; rw [hfind], ?_, fun _ => hcount⟩
    rw [hcount, hzero]
    omega

/-- Witness for C5 at concrete inputs: with one existing quiz row the
count stays one, with none it becomes one, and the assignment row is
untouched. -/
theorem claim_C5_witness :
    (regenerate_quiz ⟨"ready", none⟩
        [⟨"a1", "quiz", "old", "oldpath"⟩] "a1" "new" "newpath").1 = ⟨"ready", none⟩
    ∧ quizCount "a1" (regenerate_quiz ⟨"ready", none⟩
        [⟨"a1", "quiz", "old", "oldpath"⟩] "a1" "new" "newpath").2 = 1
    ∧ quizCount "a1" (regenerate_quiz ⟨"ready", none⟩ [] "a1" "new" "newpath").2 = 1 :=
  ⟨(claim_C5_regenerate_upsert ⟨"ready", none⟩
      [⟨"a1", "quiz", "old", "oldpath"⟩] "a1" "new" "newpath").1,
   (claim_C5_regenerate_upsert ⟨"ready", none⟩
      [⟨"a1", "quiz", "old", "oldpath"⟩] "a1" "new" "newpath").2.2 (by decide),
   (claim_C5_regenerate_upsert ⟨"ready", none⟩ [] "a1" "new" "newpath").2.2 (by decide)⟩

/-- Claim C6: the unique index on (assignment_id, variant_type) rejects
any second variant of the same type for the same assignment, and every
pipeline operation preserves the at-most-one-variant-per-pair invariant:
checked inserts, commits, the full `create_assignment` flow (from an empty
set of rows for the new assignment), and the regeneration upsert. -/
theorem claim_C6_variant_uniqueness :
    (∀ (rows : List VRow) (v : VRow), keyConflict rows v = true →
      insertVariants rows [v] = Except.error ())
    ∧ (∀ (pending rows rows' : List VRow), uniqueInv rows →
        insertVariants rows pending = Except.ok rows' → uniqueInv rows')
    ∧ (∀ (s s' : OrchState), uniqueInv s.dbVariants → commitOp s = Except.ok s' →
        uniqueInv s'.dbVariants)
    ∧ (∀ (steps : List (Except String VRow)),
        uniqueInv (create_assignment steps).2.dbVariants)
    ∧ (∀ (dbA : ARow) (vars : List VRow) (aid qc qa : String), uniqueInv vars →
        uniqueInv (regenerate_quiz dbA vars aid qc qa).2) := by
  refine ⟨insertVariants_rejects, insertVariants_ok_unique,
    commitOp_unique, create_assignment_unique, ?_⟩
  intro dbA vars aid qc qa h
  unfold regenerate_quiz
  cases hfind : vars.find? (isQuizRow aid) with
  | some v => exact uniqueInv_updateFirst aid qc qa vars h
  | none =>
    refine uniqueInv_append_one vars _ h ?_
    rw [keyConflict_eq_false]
    intro r hr hk
    have hnone := List.find?_eq_none.1 hfind r hr
    apply hnone
    unfold isQuizRow
    have h1 : r.assignmentId = aid := hk.1
    have h2 : r.variantType = "quiz" := hk.2
    rw [h1, h2]
    simp

/-- Witness for C6: a duplicate (assignment, quiz) insert is rejected, and
a concrete two-row database stays duplicate-free through regeneration. -/
theorem claim_C6_witness :
    insertVariants [⟨"a1", "quiz", "c", "p"⟩] [⟨"a1", "quiz", "c2", "p2"⟩]
      = Except.error ()
    ∧ uniqueInv (regenerate_quiz ⟨"ready", none⟩
        [⟨"a1", "simplified", "c", "p"⟩] "a1" "q" "qp").2 :=
  ⟨claim_C6_variant_uniqueness.1 [⟨"a1", "quiz", "c", "p"⟩] ⟨"a1", "quiz", "c2", "p2"⟩ rfl,
   claim_C6_variant_uniqueness.2.2.2.2 ⟨"ready", none⟩
     [⟨"a1", "simplified", "c", "p"⟩] "a1" "q" "qp"
     (List.pairwise_singleton _ _)⟩

/-- The second, third and fourth variant rows that would be persisted on a
successful run, used by the C2 evaluation. -/
def vSimplifiedDemo : VRow :=
  { assignmentId := "a1", variantType := "simplified", contentText := "s", assets := "" }

def vAudioDemo : VRow :=
  { assignmentId := "a1", variantType := "audio", contentText := "a", assets := "" }

def vVisualDemo : VRow :=
  { assignmentId := "a1", variantType := "visual", contentText := "v", assets := "" }

def vQuizDemo : VRow :=
  { assignmentId := "a1", variantType := "quiz", contentText := "q", assets := "" }

/-- The backend times out on the very first variant step (the simplified
text generation), before any `_persist_variant` commit. -/
def firstStepTimeout : List (Except String VRow) :=
  [Except.error "504 Deadline Exceeded", Except.ok vAudioDemo,
   Except.ok vVisualDemo, Except.ok vQuizDemo]

/-- Claim C2 evaluated at its failing input: when generation raises on the
very first variant step, `db.session.rollback()` expunges the
flushed-but-never-committed assignment, so the subsequent
status-`failed` commit persists nothing — the final database holds no
assignment row at all and zero variants, while the in-memory object (and
the claim) say `failed` with the error message; the exception itself does
propagate. -/
theorem claim_C2_first_step_failure_eval :
    (create_assignment firstStepTimeout).2.dbAssignment = none
    ∧ (create_assignment firstStepTimeout).2.dbVariants = []
    ∧ (create_assignment firstStepTimeout).1 = Except.error "504 Deadline Exceeded"
    ∧ (create_assignment firstStepTimeout).2.aStatus = "failed"
    ∧ (create_assignment firstStepTimeout).2.aError = some "504 Deadline Exceeded" :=
  ⟨rfl, rfl, rfl, rfl, rfl⟩

/-- Failure on the second variant step, after the first
`_persist_variant` commit. -/
def secondStepTimeout : List (Except String VRow) :=
  [Except.ok vSimplifiedDemo, Except.error "504 Deadline Exceeded",
   Except.ok vVisualDemo, Except.ok vQuizDemo]

/-- Sanity theorem for the session model (not itself a claim): once the
first variant commit has also committed the assignment row, a later
escaping failure does persist the `failed` status with the exception
message and leaves the earlier variant in place, exactly as lines 79-87
intend. -/
theorem create_assignment_second_step_failure_persists :
    (create_assignment secondStepTimeout).2.dbAssignment
      = some ⟨"failed", some "504 Deadline Exceeded"⟩
    ∧ (create_assignment secondStepTimeout).2.dbVariants = [vSimplifiedDemo]
    ∧ (create_assignment secondStepTimeout).1 = Except.error "504 Deadline Exceeded" :=
  ⟨rfl, rfl, rfl⟩

end ReflexED
